import Mathlib

/-!
# Verification of the conference-contact-tracker QR parser and sync hooks

This file embeds, as executable Lean definitions, the QR payload parser
(`parseQrData` / `parseVCard` / `parseMeCard` from `src/app/scan/page.tsx`),
its caller `handleQrDetected`, and the entity-sync hook logic
(`loadProfile` / `updateProfile` from `hooks/use-profile.tsx`,
`loadQrSettings` / `updateQrSettings` and the contacts hook from
`hooks/use-qr-settings.tsx` / `hooks/use-contacts.tsx`), and proves or
refutes the specification's claims about them.

JavaScript strings are modelled as `List Char` (one entry per UTF-16 unit in
the relevant ASCII/BMP range); `String`-typed wrappers are provided under the
source names.  JavaScript `undefined` is modelled as `Option.none` where a
variable may be absent; JSON `null` is `Json.null`.
-/

namespace CT

/-- The whitespace set used by JavaScript `String.prototype.trim` and by the
regex class `\s`, restricted to the characters that can occur in this
application's payloads (ASCII whitespace plus NBSP and BOM). -/
def isJsSpace (c : Char) : Bool :=
  c = ' ' || c = '\t' || c = '\n' || c = '\r' ||
  c = '\x0b' || c = '\x0c' || c = ' ' || c = '﻿'

/-- JavaScript `String.prototype.trim` on a list of chars: leading and
trailing whitespace removed. -/
def trimL (xs : List Char) : List Char :=
  (xs.dropWhile isJsSpace).rdropWhile isJsSpace

/-- JavaScript `String.prototype.split` with a single-character separator and
no limit: always returns at least one (possibly empty) piece. -/
def splitOnCharL (sep : Char) : List Char → List (List Char)
  | [] => [[]]
  | x :: xs =>
    let r := splitOnCharL sep xs
    if x = sep then [] :: r
    else
      match r with
      | [] => [[x]]
      | y :: ys => (x :: y) :: ys

/-- `splitOnCharL` never returns the empty list. -/
theorem splitOnCharL_ne_nil (sep : Char) (xs : List Char) :
    splitOnCharL sep xs ≠ [] := by
  cases xs with
  | nil => simp [splitOnCharL]
  | cons x xs =>
    simp only [splitOnCharL]
    split
    · simp
    · split
      · simp
      · simp

/-- JavaScript `String.prototype.toLowerCase`, ASCII portion (sufficient for
the hostname and vCard-line comparisons in the source). -/
def toLowerL (xs : List Char) : List Char :=
  xs.map Char.toLower

/-- JavaScript `a.includes(b)` for strings: substring containment. -/
def containsSub (hay needle : List Char) : Bool :=
  if needle.isPrefixOf hay then true
  else
    match hay with
    | [] => false
    | _ :: t => containsSub t needle

/-- First segment of `value.split(";")`, i.e. everything before the first
`;` (used for vCard `FN`/`N`/`ORG` values). -/
def firstSemiSeg (xs : List Char) : List Char :=
  xs.takeWhile (· ≠ ';')

/-- JavaScript `value.replace(",", " ")`: replaces only the FIRST occurrence
of the comma. -/
def replaceFirstComma : List Char → List Char
  | [] => []
  | x :: xs => if x = ',' then ' ' :: xs else x :: replaceFirstComma xs

/-! ## A model of JSON values and of `JSON.parse` / `JSON.stringify`

Numbers are kept as their raw lexemes: no claim in scope depends on numeric
arithmetic, only on parse success/failure and on JS truthiness. -/

/-- JSON values as produced by `JSON.parse`.  Duplicate object keys are kept
in order; property lookup takes the LAST occurrence, matching JS semantics. -/
inductive Json where
  | null : Json
  | bool (b : Bool) : Json
  | num (lit : List Char) : Json
  | str (s : List Char) : Json
  | arr (xs : List Json) : Json
  | obj (kvs : List (String × Json)) : Json

/-- Is the numeric literal a representation of zero (`0`, `-0`, `0.00`,
`0e5`, ...)?  Used only for JS truthiness of numbers. -/
def zeroLit (lit : List Char) : Bool :=
  (lit.filter (fun c => c.isDigit)).all (· = '0')

/-- JavaScript truthiness of a JSON value. -/
def jsTruthy : Json → Bool
  | .null => false
  | .bool b => b
  | .num lit => !zeroLit lit
  | .str s => !s.isEmpty
  | .arr _ => true
  | .obj _ => true

/-- Truthiness of a possibly-`undefined` value. -/
def optTruthy : Option Json → Bool
  | none => false
  | some v => jsTruthy v

/-- JavaScript `a || b` on possibly-`undefined` JSON values. -/
def jsOr (a b : Option Json) : Option Json :=
  if optTruthy a then a else b

/-- JS property access `o[k]` after `JSON.parse`: last duplicate key wins;
missing key is `undefined` (`none`). -/
def objGet (kvs : List (String × Json)) (k : String) : Option Json :=
  match kvs.reverse.find? (fun kv => kv.1 = k) with
  | some kv => some kv.2
  | none => none

/-- Insert-or-replace for JS object property assignment `o[k] = v`
(replacement keeps the key's original position; a new key is appended). -/
def objSet (kvs : List (String × Json)) (k : String) (v : Json) :
    List (String × Json) :=
  if kvs.any (fun kv => kv.1 = k) then
    kvs.map (fun kv => if kv.1 = k then (k, v) else kv)
  else
    kvs ++ [(k, v)]

/-- Whitespace accepted between JSON tokens by `JSON.parse`. -/
def isJsonWs (c : Char) : Bool :=
  c = ' ' || c = '\t' || c = '\n' || c = '\r'

/-- Skip inter-token whitespace. -/
def skipWs (xs : List Char) : List Char :=
  xs.dropWhile isJsonWs

/-- Is the character an ASCII hex digit?  (Codepoint ranges 0-9, a-f,
A-F.) -/
def isHexDig (c : Char) : Bool :=
  let n := c.toNat
  (48 ≤ n && n ≤ 57) || (97 ≤ n && n ≤ 102) || (65 ≤ n && n ≤ 70)

/-- Numeric value of an ASCII hex digit, via its codepoint. -/
def hexVal (c : Char) : Nat :=
  let n := c.toNat
  if n ≤ 57 then n - 48
  else if 97 ≤ n then n - 87
  else n - 55

/-- Parse a JSON string body after the opening quote, handling the escape
sequences of RFC 8259 (`\" \\ \/ \b \f \n \r \t \uXXXX`).  Returns the
decoded characters and the input after the closing quote. -/
def parseStrBody : List Char → Option (List Char × List Char)
  | [] => none
  | '"' :: rest => some ([], rest)
  | '\\' :: esc :: rest =>
    match esc with
    | '"' => (parseStrBody rest).map (fun r => ('"' :: r.1, r.2))
    | '\\' => (parseStrBody rest).map (fun r => ('\\' :: r.1, r.2))
    | '/' => (parseStrBody rest).map (fun r => ('/' :: r.1, r.2))
    | 'b' => (parseStrBody rest).map (fun r => ('\x08' :: r.1, r.2))
    | 'f' => (parseStrBody rest).map (fun r => ('\x0c' :: r.1, r.2))
    | 'n' => (parseStrBody rest).map (fun r => ('\n' :: r.1, r.2))
    | 'r' => (parseStrBody rest).map (fun r => ('\r' :: r.1, r.2))
    | 't' => (parseStrBody rest).map (fun r => ('\t' :: r.1, r.2))
    | 'u' =>
      match rest with
      | a :: b :: c :: d :: rest' =>
        if isHexDig a && isHexDig b && isHexDig c && isHexDig d then
          let n := 4096 * hexVal a + 256 * hexVal b + 16 * hexVal c + hexVal d
          (parseStrBody rest').map (fun r => (Char.ofNat n :: r.1, r.2))
        else none
      | _ => none
    | _ => none
  | c :: rest =>
    if c = '\n' || c = '\r' || c.toNat < 32 then none
    else (parseStrBody rest).map (fun r => (c :: r.1, r.2))

/-- Lex a JSON number (RFC 8259 grammar: `-?int frac? exp?`), returning the
consumed lexeme and the remaining input. -/
def lexNumber (xs : List Char) : Option (List Char × List Char) :=
  let (neg, afterSign) :=
    match xs with
    | '-' :: t => (['-'], t)
    | _ => (([] : List Char), xs)
  let intPart := afterSign.takeWhile Char.isDigit
  let afterInt := afterSign.dropWhile Char.isDigit
  if intPart.isEmpty then none
  else if intPart.length > 1 && intPart.headD '0' = '0' then none
  else
    let (frac, afterFrac) :=
      match afterInt with
      | '.' :: t =>
        let ds := t.takeWhile Char.isDigit
        if ds.isEmpty then (([] : List Char), afterInt)
        else ('.' :: ds, t.dropWhile Char.isDigit)
      | _ => (([] : List Char), afterInt)
    if afterInt ≠ afterFrac ∨ frac.isEmpty then
      let (ex, afterExp) :=
        match afterFrac with
        | e :: t =>
          if e = 'e' ∨ e = 'E' then
            match t with
            | s :: t' =>
              if s = '+' ∨ s = '-' then
                let ds := t'.takeWhile Char.isDigit
                if ds.isEmpty then (([] : List Char), afterFrac)
                else (e :: s :: ds, t'.dropWhile Char.isDigit)
              else
                let ds := t.takeWhile Char.isDigit
                if ds.isEmpty then (([] : List Char), afterFrac)
                else (e :: ds, t.dropWhile Char.isDigit)
            | [] => (([] : List Char), afterFrac)
          else (([] : List Char), afterFrac)
        | [] => (([] : List Char), afterFrac)
      some (neg ++ intPart ++ frac ++ ex, afterExp)
    else none

mutual

/-- Recursive-descent JSON value parser with explicit fuel.  The fuel bounds
the recursion; `(input length) + 2` always suffices because every recursive
call corresponds to at least one distinct consumed input character. -/
def parseVal : Nat → List Char → Option (Json × List Char)
  | 0, _ => none
  | f + 1, xs =>
    match skipWs xs with
    | [] => none
    | c :: rest =>
      match c with
      | 'n' =>
        if rest.take 3 = ['u', 'l', 'l'] then some (.null, rest.drop 3) else none
      | 't' =>
        if rest.take 3 = ['r', 'u', 'e'] then some (.bool true, rest.drop 3)
        else none
      | 'f' =>
        if rest.take 4 = ['a', 'l', 's', 'e'] then some (.bool false, rest.drop 4)
        else none
      | '"' =>
        (parseStrBody rest).map (fun r => (.str r.1, r.2))
      | '[' =>
        (match skipWs rest with
         | ']' :: rest' => some (.arr [], rest')
         | _ => parseElems f rest [])
      | '{' =>
        (match skipWs rest with
         | '}' :: rest' => some (.obj [], rest')
         | _ => parseMembers f rest [])
      | _ =>
        (lexNumber (c :: rest)).map (fun r => (.num r.1, r.2))

/-- Parse the comma-separated elements of a non-empty JSON array
(accumulator holds previous elements in reverse). -/
def parseElems : Nat → List Char → List Json → Option (Json × List Char)
  | 0, _, _ => none
  | f + 1, xs, acc =>
    match parseVal f xs with
    | none => none
    | some (v, rest) =>
      match skipWs rest with
      | ',' :: rest' => parseElems f rest' (v :: acc)
      | ']' :: rest' => some (.arr (v :: acc).reverse, rest')
      | _ => none

/-- Parse the comma-separated members of a non-empty JSON object
(accumulator holds previous members in reverse). -/
def parseMembers :
    Nat → List Char → List (String × Json) → Option (Json × List Char)
  | 0, _, _ => none
  | f + 1, xs, acc =>
    match skipWs xs with
    | '"' :: afterQuote =>
      match parseStrBody afterQuote with
      | none => none
      | some (key, afterKey) =>
        match skipWs afterKey with
        | ':' :: afterColon =>
          match parseVal f afterColon with
          | none => none
          | some (v, rest) =>
            let acc' := (⟨key⟩, v) :: acc
            match skipWs rest with
            | ',' :: rest' => parseMembers f rest' acc'
            | '}' :: rest' => some (.obj acc'.reverse, rest')
            | _ => none
        | _ => none
    | _ => none

end

/-- `JSON.parse` on a list of chars: parses one JSON text and requires the
remaining input to be whitespace; `none` models a thrown `SyntaxError`. -/
def jsonParseL (xs : List Char) : Option Json :=
  match parseVal (xs.length + 2) xs with
  | some (v, rest) => if (skipWs rest).isEmpty then some v else none
  | none => none

/-- `JSON.parse` on a `String`. -/
def jsonParse (s : String) : Option Json :=
  jsonParseL s.data

/-- Characters that `JSON.stringify` escapes inside string values. -/
def escapeChar (c : Char) : List Char :=
  if c = '"' then ['\\', '"']
  else if c = '\\' then ['\\', '\\']
  else if c = '\n' then ['\\', 'n']
  else if c = '\r' then ['\\', 'r']
  else if c = '\t' then ['\\', 't']
  else if c = '\x08' then ['\\', 'b']
  else if c = '\x0c' then ['\\', 'f']
  else if c.toNat < 32 then
    ['\\', 'u', '0', '0',
     Nat.digitChar (c.toNat / 16), Nat.digitChar (c.toNat % 16)]
  else [c]

mutual

/-- `JSON.stringify` (compact form, no indent argument) on a JSON value. -/
def jsonStringifyL : Json → List Char
  | .null => "null".data
  | .bool b => if b then "true".data else "false".data
  | .num lit => lit
  | .str s => '"' :: (s.flatMap escapeChar) ++ ['"']
  | .arr xs => '[' :: stringifyElems xs ++ [']']
  | .obj kvs => '{' :: stringifyMembers kvs ++ ['}']

/-- Comma-join of serialized array elements. -/
def stringifyElems : List Json → List Char
  | [] => []
  | [x] => jsonStringifyL x
  | x :: y :: t => jsonStringifyL x ++ ',' :: stringifyElems (y :: t)

/-- Comma-join of serialized object members. -/
def stringifyMembers : List (String × Json) → List Char
  | [] => []
  | [(k, v)] =>
    '"' :: (k.data.flatMap escapeChar) ++ '"' :: ':' :: jsonStringifyL v
  | (k, v) :: m :: t =>
    '"' :: (k.data.flatMap escapeChar) ++ '"' :: ':' :: jsonStringifyL v
      ++ ',' :: stringifyMembers (m :: t)

end

/-! ## The QR payload parser (`src/app/scan/page.tsx`) -/

/-- The `Partial<Contact>` records built by `parseQrData` and its
sub-parsers.  Each field is `none` when the corresponding JS property is
`undefined` (absent); JSON-branch values keep their parsed `Json` type,
every other branch stores `Json.str` values. -/
structure PartialContact where
  name : Option Json
  title : Option Json
  company : Option Json
  email : Option Json
  phone : Option Json
  socials : Option Json
  notes : Option Json
  metAt : Option Json

/-- The all-`undefined` partial contact. -/
def PartialContact.empty : PartialContact :=
  ⟨none, none, none, none, none, none, none, none⟩

/-- Split on the line-break regex `/\r\n|\r|\n/` (vCard line splitting). -/
def splitNewlines : List Char → List (List Char)
  | [] => [[]]
  | '\r' :: '\n' :: t => [] :: splitNewlines t
  | '\r' :: t => [] :: splitNewlines t
  | '\n' :: t => [] :: splitNewlines t
  | c :: t =>
    match splitNewlines t with
    | [] => [[c]]
    | y :: ys => (c :: y) :: ys

/-- `line.indexOf(":")` split: `none` when the line has no colon, otherwise
the text before the first colon and the text after it. -/
def splitFirstColon (xs : List Char) : Option (List Char × List Char) :=
  if xs.contains ':' then
    some (xs.takeWhile (· ≠ ':'), (xs.dropWhile (· ≠ ':')).tail)
  else none

/-- The social-platform bucket chosen for a vCard `URL` line: the whole
lower-cased line is tested with substring checks, in source order. -/
def vcardUrlType (line : List Char) : String :=
  let lower := toLowerL line
  if containsSub lower "linkedin".data then "linkedin"
  else if containsSub lower "twitter".data || containsSub lower "x.com".data
    then "twitter"
  else if containsSub lower "instagram".data then "instagram"
  else if containsSub lower "facebook".data then "facebook"
  else "website"

/-- The object entries of a contact's `socials` value after the source's
`if (!contact.socials) contact.socials = {}` guard. -/
def socialsEntries (socials : Option Json) : List (String × Json) :=
  match (if optTruthy socials then socials else some (Json.obj [])) with
  | some (Json.obj kvs) => kvs
  | _ => []

/-- The mutable per-line state of `parseVCard`'s `forEach` loop: the contact
being built plus the `currentKey` / `currentValue` variables. -/
structure VState where
  contact : PartialContact
  currentKey : List Char
  currentValue : List Char

/-- One iteration of `parseVCard`'s `forEach` over a (pre-trimmed) line. -/
def vstep (st : VState) (line : List Char) : VState :=
  if "BEGIN:".data.isPrefixOf line || "END:".data.isPrefixOf line ||
      "VERSION:".data.isPrefixOf line then st
  else if " ".data.isPrefixOf line && !st.currentKey.isEmpty then
    -- line-continuation branch (unreachable: lines are pre-trimmed)
    { st with currentValue := st.currentValue ++ trimL line }
  else
    match splitFirstColon line with
    | none => st
    | some (beforeColon, value) =>
      let key := firstSemiSeg beforeColon
      let c := st.contact
      let c' :=
        if key = "FN".data || key = "N".data then
          if !optTruthy c.name then
            { c with name := some (.str (firstSemiSeg value)) }
          else c
        else if key = "TITLE".data then { c with title := some (.str value) }
        else if key = "ORG".data then
          { c with company := some (.str (firstSemiSeg value)) }
        else if key = "EMAIL".data then { c with email := some (.str value) }
        else if key = "TEL".data then { c with phone := some (.str value) }
        else if key = "NOTE".data then { c with notes := some (.str value) }
        else if key = "URL".data then
          { c with socials := some (.obj
              (objSet (socialsEntries c.socials) (vcardUrlType line)
                (.str value))) }
        else c
      { contact := c', currentKey := key, currentValue := value }

/-- The initial fold state of `parseVCard` (lines 243-250). -/
def vcardInit : VState :=
  { contact :=
      { PartialContact.empty with
        metAt := some (.str "QR Code Scan".data)
        notes := some (.str "Contact from vCard".data)
        socials := some (.obj []) }
    currentKey := []
    currentValue := [] }

/-- `parseVCard` from `src/app/scan/page.tsx` (lines 241-308), on char
lists. -/
def parseVCardL (vcard : List Char) : PartialContact :=
  (((splitNewlines vcard).map trimL).foldl vstep vcardInit).contact

/-- One iteration of `parseMeCard`'s `forEach` over a `;`-separated field.
`field.split(":", 2)` keeps only the first two `:`-separated pieces, so the
value is the text between the first and second colon. -/
def mstep (c : PartialContact) (field : List Char) : PartialContact :=
  let parts := (splitOnCharL ':' field).take 2
  match parts.get? 1 with
  | none => c
  | some value =>
    if value.isEmpty then c
    else
      let key := parts.headD []
      if key = "N".data then
        { c with name := some (.str (replaceFirstComma value)) }
      else if key = "TEL".data then { c with phone := some (.str value) }
      else if key = "EMAIL".data then { c with email := some (.str value) }
      else if key = "ORG".data then { c with company := some (.str value) }
      else if key = "TITLE".data then { c with title := some (.str value) }
      else if key = "URL".data then
        { c with socials := some (.obj
            (objSet (socialsEntries c.socials) "website" (.str value))) }
      else if key = "NOTE".data then { c with notes := some (.str value) }
      else c

/-- `parseMeCard` from `src/app/scan/page.tsx` (lines 310-349), on char
lists: strips the 7-character `MECARD:` prefix and folds over the
`;`-separated fields. -/
def parseMeCardL (mecard : List Char) : PartialContact :=
  let init : PartialContact :=
    { PartialContact.empty with
      metAt := some (.str "QR Code Scan".data)
      notes := some (.str "Contact from MeCard".data)
      socials := some (.obj []) }
  (splitOnCharL ';' (mecard.drop 7)).foldl mstep init

/-- The JSON-branch contact (lines 169-179): alias keys resolved with JS
`||` chains. -/
def jsonContact (j : Json) : PartialContact :=
  let kvs := match j with | .obj kvs => kvs | _ => []
  { name := jsOr (jsOr (objGet kvs "name") (objGet kvs "fn"))
      (objGet kvs "fullName")
    title := jsOr (objGet kvs "title") (objGet kvs "jobTitle")
    company := jsOr (objGet kvs "company") (objGet kvs "organization")
    email := objGet kvs "email"
    phone := jsOr (objGet kvs "phone") (objGet kvs "tel")
    socials := jsOr (objGet kvs "socials") (some (.obj []))
    notes := objGet kvs "notes"
    metAt := some (.str "QR Code Scan".data) }

/-- A model of the WHATWG `new URL(...)` constructor, restricted to what the
URL branch consumes: success/failure and the hostname.  A scheme followed by
`:` is required; for the special schemes the slashes are optional and a
non-empty host must follow (userinfo stripping is not modelled: no payload
in scope carries one).  `none` models a thrown `TypeError`. -/
def urlParseL (xs : List Char) : Option (List Char) :=
  if xs.contains ':' then
    let scheme := toLowerL (xs.takeWhile (· ≠ ':'))
    let rest := (xs.dropWhile (· ≠ ':')).tail
    let schemeOk :=
      match scheme with
      | [] => false
      | c :: t => c.isAlpha &&
          t.all (fun d => d.isAlphanum || d = '+' || d = '-' || d = '.')
    if schemeOk then
      if ["http".data, "https".data, "ws".data, "wss".data, "ftp".data,
          "file".data].contains scheme then
        let afterSlashes := rest.dropWhile (fun c => c = '/' || c = '\\')
        let hostPort := afterSlashes.takeWhile
          (fun c => c ≠ '/' && c ≠ '\\' && c ≠ '?' && c ≠ '#')
        let host := hostPort.takeWhile (· ≠ ':')
        if host.isEmpty then none else some (toLowerL host)
      else some []
    else none
  else none

/-- The URL-branch contact (lines 186-213) for a successfully constructed
URL with the given hostname. -/
def urlContact (data hostname : List Char) : PartialContact :=
  let base : PartialContact :=
    { PartialContact.empty with
      metAt := some (.str "QR Code Scan".data)
      notes := some (.str ("Contact from ".data ++ hostname))
      socials := some (.obj []) }
  if containsSub hostname "linkedin.com".data then
    { base with socials := some (.obj (objSet [] "linkedin" (.str data)))
                name := some (.str "LinkedIn Contact".data) }
  else if containsSub hostname "twitter.com".data ||
      containsSub hostname "x.com".data then
    { base with socials := some (.obj (objSet [] "twitter" (.str data)))
                name := some (.str "Twitter Contact".data) }
  else if containsSub hostname "instagram.com".data then
    { base with socials := some (.obj (objSet [] "instagram" (.str data)))
                name := some (.str "Instagram Contact".data) }
  else if containsSub hostname "facebook.com".data then
    { base with socials := some (.obj (objSet [] "facebook" (.str data)))
                name := some (.str "Facebook Contact".data) }
  else
    { base with socials := some (.obj (objSet [] "website" (.str data)))
                name := some (.str "Web Contact".data) }

/-- The email-branch contact (lines 216-222). -/
def emailContact (data : List Char) : PartialContact :=
  { PartialContact.empty with
    name := some (.str "Email Contact".data)
    email := some (.str data)
    metAt := some (.str "QR Code Scan".data) }

/-- The phone-branch regex `/^[+\d\s-()]+$/`: a non-empty string of `+`,
digits, whitespace, `-`, `(`, `)`. -/
def phoneTest (data : List Char) : Bool :=
  !data.isEmpty && data.all
    (fun c => c = '+' || c.isDigit || isJsSpace c || c = '-' ||
      c = '(' || c = ')')

/-- The phone-branch contact (lines 225-231). -/
def phoneContact (data : List Char) : PartialContact :=
  { PartialContact.empty with
    name := some (.str "Phone Contact".data)
    phone := some (.str data)
    metAt := some (.str "QR Code Scan".data) }

/-- The text-note fallback contact (lines 234-238). -/
def textContact (data : List Char) : PartialContact :=
  { PartialContact.empty with
    name := some (.str "Text Note".data)
    notes := some (.str data)
    metAt := some (.str "QR Code Scan".data) }

/-- The JSON-branch condition (line 168): the trimmed payload starts with
`{` and ends with `}`. -/
def bracesCond (data : List Char) : Bool :=
  "\x7b".data.isPrefixOf (trimL data) && "\x7d".data.isSuffixOf (trimL data)

/-- The only exception `parseQrData` itself can raise: `new URL(data)`
throwing on an invalid URL (line 187; the `JSON.parse` call is inside its
own `try`). -/
inductive QrError where
  | invalidUrl
deriving DecidableEq

/-- `parseQrData` from `src/app/scan/page.tsx` (lines 151-239), on char
lists.  `Except.error` models an uncaught exception escaping to the caller;
`.ok none` is the `return null` for empty input.  A brace-wrapped payload
whose `JSON.parse` fails falls through to the later branches (the `catch`
block only logs). -/
def parseQrDataL (data : List Char) : Except QrError (Option PartialContact) :=
  if data.isEmpty then .ok none
  else if "BEGIN:VCARD".data.isPrefixOf data then .ok (some (parseVCardL data))
  else if "MECARD:".data.isPrefixOf data then .ok (some (parseMeCardL data))
  else
    match (if bracesCond data then jsonParseL data else none) with
    | some j => .ok (some (jsonContact j))
    | none =>
      if "http".data.isPrefixOf data then
        match urlParseL data with
        | none => .error .invalidUrl
        | some hostname => .ok (some (urlContact data hostname))
      else if data.contains '@' && data.contains '.' then
        .ok (some (emailContact data))
      else if phoneTest data then .ok (some (phoneContact data))
      else .ok (some (textContact data))

/-- `parseQrData` on a `String`. -/
def parseQrData (s : String) : Except QrError (Option PartialContact) :=
  parseQrDataL s.data

/-- `parseVCard` on a `String`. -/
def parseVCard (s : String) : PartialContact :=
  parseVCardL s.data

/-- `parseMeCard` on a `String`. -/
def parseMeCard (s : String) : PartialContact :=
  parseMeCardL s.data

/-! ## The parser's caller `handleQrDetected` (lines 114-149) -/

/-- JS `a || d` where `a` may be `undefined` and `d` is a defined default. -/
def jsOrD (a : Option Json) (d : Json) : Json :=
  if optTruthy a then a.getD d else d

/-- The contact built at lines 125-136 when parsing succeeds.  The
`id`/`date` fields (wall-clock values `Date.now()` / `new Date()`) are not
modelled. -/
structure ScanContact where
  name : Json
  title : Option Json
  company : Option Json
  email : Option Json
  phone : Option Json
  socials : Json
  notes : Json
  metAt : Json

/-- The observable outcome of one `handleQrDetected` call: an early return
on blank input, an error message placed in the `error` state, or a created
contact. -/
inductive HandleResult where
  | ignored
  | errorState (msg : String)
  | contactAdded (c : ScanContact)

/-- `handleQrDetected` from `src/app/scan/page.tsx` (lines 114-149), on
char lists.  The `try`/`catch` around `parseQrData` maps an `Except.error`
to the generic could-not-parse error state; no contact is created there. -/
def handleQrDetectedL (data : List Char) : HandleResult :=
  if data.isEmpty || (trimL data).isEmpty then .ignored
  else
    match parseQrDataL data with
    | .error _ => .errorState "Could not parse QR code data"
    | .ok none => .errorState "Could not extract contact information from QR code"
    | .ok (some p) =>
      if optTruthy p.name || optTruthy p.email || optTruthy p.phone then
        .contactAdded
          { name := jsOrD p.name (.str "Unknown Contact".data)
            title := p.title
            company := p.company
            email := p.email
            phone := p.phone
            socials := jsOrD p.socials (.obj [])
            notes := jsOrD p.notes (.str "Added via QR code scan".data)
            metAt := jsOrD p.metAt (.str "QR Code Scan".data) }
      else .errorState "Could not extract contact information from QR code"

/-- `handleQrDetected` on a `String`. -/
def handleQrDetected (s : String) : HandleResult :=
  handleQrDetectedL s.data

/-! ## The profile sync hook (`hooks/use-profile.tsx`, src/unnamed/part_001)

The asynchronous remote calls are modelled by passing their outcome as an
explicit `RemoteOutcome` argument; `localStorage` writes are recorded in the
returned outcome record. -/

/-- Outcome of one remote document-store call: success with the returned
document, a not-found error (code 404 / `document_not_found` /
`database_not_found` / `collection_not_found`), or any other failure. -/
inductive RemoteOutcome (α : Type) where
  | ok (doc : α)
  | notFound
  | failure

/-- Identity fields of the authenticated user consumed as defaults. -/
structure UserInfo where
  name : List Char
  email : List Char

/-- The runtime shape of the in-memory `LocalProfileType` value.  Fields
declared required in the TS interface can still be `undefined` at runtime
through partial merges, hence every field is an `Option`;
`profilePictureId = some []` is the empty string. -/
structure ProfileState where
  name : Option (List Char)
  title : Option (List Char)
  company : Option (List Char)
  email : Option (List Char)
  phone : Option (List Char)
  socials : Option Json
  profilePictureId : Option (List Char)
  profilePicture : Option (List Char)

/-- A `Partial<LocalProfileType>` update: an outer `none` means the key is
absent from the partial object (so the merge keeps the old value). -/
structure ProfilePatch where
  name : Option (Option (List Char)) := none
  title : Option (Option (List Char)) := none
  company : Option (Option (List Char)) := none
  email : Option (Option (List Char)) := none
  phone : Option (Option (List Char)) := none
  socials : Option (Option Json) := none
  profilePictureId : Option (Option (List Char)) := none
  profilePicture : Option (Option (List Char)) := none

/-- The shallow merge `{ ...profile, ...newProfileData }` (line 423). -/
def mergeProfile (p : ProfileState) (u : ProfilePatch) : ProfileState :=
  { name := u.name.getD p.name
    title := u.title.getD p.title
    company := u.company.getD p.company
    email := u.email.getD p.email
    phone := u.phone.getD p.phone
    socials := u.socials.getD p.socials
    profilePictureId := u.profilePictureId.getD p.profilePictureId
    profilePicture := u.profilePicture.getD p.profilePicture }

/-- JS `a || d` on a possibly-`undefined` JSON value, returning a JSON
value. -/
def jsOrVal (a : Option Json) (d : Json) : Json :=
  if optTruthy a then a.getD d else d

/-- The `profilePictureId` payload attribute (lines 450-456): `null` when
the merged value is `null`, `undefined` or the empty string — the explicit
cleared sentinel — otherwise the id itself. -/
def picturePayload (v : Option (List Char)) : Json :=
  match v with
  | none => .null
  | some s => if s.isEmpty then .null else .str s

/-- The remote `profiles` document / update payload (the attributes of
`AppwriteProfile` minus the platform metadata).  `socials` is stored as a
JSON value (`Json.str` when the client stringified it); `profilePictureId`
is `none` when the attribute is omitted from a payload. -/
structure ProfileDoc where
  name : List Char
  company : List Char
  email : List Char
  title : Option (List Char)
  phone : Option (List Char)
  socials : Json
  userId : List Char
  profilePictureId : Option Json

/-- The update/create payload built at lines 442-457 from the merged
profile (`??` is JS nullish coalescing, `||` JS truthiness). -/
def profilePayload (cur : ProfileState) (user : UserInfo) (uid : List Char) :
    ProfileDoc :=
  { name := cur.name.getD user.name
    company := cur.company.getD "Unknown".data
    email := cur.email.getD user.email
    title := cur.title
    phone := cur.phone
    socials := .str (jsonStringifyL (jsOrVal cur.socials (.obj [])))
    userId := uid
    profilePictureId := some (picturePayload cur.profilePictureId) }

/-- JS `a || b` on strings (empty string is falsy). -/
def jsStrOr (a b : List Char) : List Char :=
  if a.isEmpty then b else a

/-- The defensive `socials` normalization used by both the loader (lines
184-187) and the post-save normalizations (lines 474-477, 530-533): a raw
JSON string is parsed (`none` models the `JSON.parse` throw), anything else
is taken as-is with `|| {}`. -/
def normalizeSocials (v : Json) : Option Json :=
  match v with
  | .str s => jsonParseL s
  | v => some (jsOrVal (some v) (.obj []))

/-- A remote document's `profilePictureId` as it lands in the local state:
the direct assignment makes `null` / an omitted attribute read as no value,
and a stored string reads as that id. -/
def docPictureId (v : Option Json) : Option (List Char) :=
  match v with
  | some (.str s) => some s
  | _ => none

/-- The normalized profile produced by a successful remote fetch in
`loadProfile` (lines 178-249).  `fileExists` is the outcome of the storage
existence check for a long-enough picture id; the derived display URL is
wall-clock cache-busted and is not modelled (left `none`, as in the stored
copy).  `none` models the `JSON.parse` throw on a corrupt `socials`
string. -/
def loadProfileResult (doc : ProfileDoc) (user : UserInfo)
    (fileExists : Bool) : Option ProfileState :=
  match normalizeSocials doc.socials with
  | none => none
  | some socialsVal =>
    let pic0 := docPictureId doc.profilePictureId
    let pic :=
      match pic0 with
      | some s => if s.length > 8 && !fileExists then none else some s
      | none => none
    some
      { name := some (jsStrOr doc.name (jsStrOr user.name []))
        email := some (jsStrOr doc.email (jsStrOr user.email []))
        title := some ((doc.title).getD [])
        company := some (jsStrOr doc.company [])
        phone := some ((doc.phone).getD [])
        socials := some socialsVal
        profilePictureId := pic
        profilePicture := none }

/-- The outcome of one `updateProfile` call: final in-memory state, the
`localStorage` snapshot written under `profile_<uid>` (`none`: no write),
and the error flag. -/
structure ProfileOutcome where
  state : ProfileState
  cacheWrite : Option ProfileState
  error : Option String

/-- The post-save state normalization shared by the update-success path
(lines 468-489) and the create-success path (lines 524-548): document
fields replace the state, `socials` is decoded defensively, and the
in-flight preview URL is kept.  `none` models the `JSON.parse` throw. -/
def stateFromSavedDoc (doc : ProfileDoc) (cur : ProfileState) :
    Option ProfileState :=
  match normalizeSocials doc.socials with
  | none => none
  | some socialsVal =>
    some
      { name := some doc.name
        title := doc.title
        company := some doc.company
        email := some doc.email
        phone := doc.phone
        socials := some socialsVal
        profilePictureId := docPictureId doc.profilePictureId
        profilePicture := cur.profilePicture }

/-- `updateProfile` (lines 410-567) in the authenticated case, with the
remote `updateDocument` outcome and — taken only on not-found — the
`createDocumentWithId` outcome passed explicitly.  The no-op existence
probe at lines 426-437 (result discarded, errors swallowed) is omitted.
On success the stored copy drops the display URL (lines 483-486). -/
def updateProfileAuth (p : ProfileState) (newData : ProfilePatch)
    (user : UserInfo) (uid : List Char)
    (updateRes createRes : RemoteOutcome ProfileDoc) : ProfileOutcome :=
  let cur := mergeProfile p newData
  let _payload := profilePayload cur user uid
  match updateRes with
  | .ok updatedDoc =>
    match stateFromSavedDoc updatedDoc cur with
    | some st =>
      { state := st, cacheWrite := some { st with profilePicture := none }
        error := none }
    | none =>
      { state := p, cacheWrite := none
        error := some "Failed to save profile to database (update failed)." }
  | .notFound =>
    match createRes with
    | .ok createdDoc =>
      match stateFromSavedDoc createdDoc cur with
      | some st =>
        { state := st, cacheWrite := some { st with profilePicture := none }
          error := none }
      | none =>
        { state := p, cacheWrite := none
          error := some "Failed to save profile to database (creation failed)." }
    | _ =>
      { state := p, cacheWrite := none
        error := some "Failed to save profile to database (creation failed)." }
  | .failure =>
    { state := p, cacheWrite := none
      error := some "Failed to save profile to database (update failed)." }

/-! ## The QR-settings and contacts hooks (src/unnamed/part_005) -/

/-- The `QrSettings` record (`types/qr-settings.ts`). -/
structure QrSettingsT where
  bgColor : List Char
  fgColor : List Char
  pageBackgroundColor : List Char
  cardBackgroundColor : List Char
  textColor : List Char
  showName : Bool
  showTitle : Bool
  showCompany : Bool
  showContact : Bool
  showSocials : Bool
  showProfilePicture : Bool
  layoutStyle : List Char
  qrSize : Int
  borderRadius : Int
  cardPadding : Int
  fontFamily : List Char
  fontSize : Int

/-- A `Partial<QrSettings>` update. -/
structure QrPatch where
  bgColor : Option (List Char) := none
  fgColor : Option (List Char) := none
  pageBackgroundColor : Option (List Char) := none
  cardBackgroundColor : Option (List Char) := none
  textColor : Option (List Char) := none
  showName : Option Bool := none
  showTitle : Option Bool := none
  showCompany : Option Bool := none
  showContact : Option Bool := none
  showSocials : Option Bool := none
  showProfilePicture : Option Bool := none
  layoutStyle : Option (List Char) := none
  qrSize : Option Int := none
  borderRadius : Option Int := none
  cardPadding : Option Int := none
  fontFamily : Option (List Char) := none
  fontSize : Option Int := none

/-- The shallow merge `{ ...qrSettings, ...settingsToUpdate }` (line 230). -/
def mergeQr (s : QrSettingsT) (u : QrPatch) : QrSettingsT :=
  { bgColor := u.bgColor.getD s.bgColor
    fgColor := u.fgColor.getD s.fgColor
    pageBackgroundColor := u.pageBackgroundColor.getD s.pageBackgroundColor
    cardBackgroundColor := u.cardBackgroundColor.getD s.cardBackgroundColor
    textColor := u.textColor.getD s.textColor
    showName := u.showName.getD s.showName
    showTitle := u.showTitle.getD s.showTitle
    showCompany := u.showCompany.getD s.showCompany
    showContact := u.showContact.getD s.showContact
    showSocials := u.showSocials.getD s.showSocials
    showProfilePicture := u.showProfilePicture.getD s.showProfilePicture
    layoutStyle := u.layoutStyle.getD s.layoutStyle
    qrSize := u.qrSize.getD s.qrSize
    borderRadius := u.borderRadius.getD s.borderRadius
    cardPadding := u.cardPadding.getD s.cardPadding
    fontFamily := u.fontFamily.getD s.fontFamily
    fontSize := u.fontSize.getD s.fontSize }

/-- The outcome of one `updateQrSettings` call. -/
structure QrOutcome where
  state : QrSettingsT
  cacheWrite : Option QrSettingsT
  error : Option String

/-- `updateQrSettings` (lines 227-300) in the authenticated case.  The
optimistic state and the cache snapshot are written before the remote round
trip; `remote` summarizes the list-then-create-or-update block, whose single
`catch` sets the save-failure flag without touching state or cache
(`RemoteOutcome.notFound` cannot arise: a missing document is handled by the
create path inside the same `try`). -/
def updateQrSettingsAuth (s : QrSettingsT) (u : QrPatch)
    (remote : RemoteOutcome Unit) : QrOutcome :=
  let newSettings := mergeQr s u
  match remote with
  | .ok _ =>
    { state := newSettings, cacheWrite := some newSettings, error := none }
  | _ =>
    { state := newSettings, cacheWrite := some newSettings
      error := some "Failed to save QR settings to database." }

/-- A contact document as the contacts hook handles it: the `$id` plus the
document's attribute map (the hook itself only spreads and replaces whole
records, never touching individual attributes). -/
structure ContactRec where
  id : List Char
  fields : List (String × Json)

/-- A partial contact update `Partial<Omit<Contact, "user_id">> & {$id}`. -/
structure ContactPatch where
  id : List Char
  fields : List (String × Json)

/-- The spread `{ ...c, ...payload }` on contact records (line 461). -/
def mergeContact (c : ContactRec) (u : ContactPatch) : ContactRec :=
  { id := c.id
    fields := u.fields.foldl (fun acc kv => objSet acc kv.1 kv.2) c.fields }

/-- The outcome of one `updateContact` call: final contact list, the
`localStorage` snapshot written under `contacts`, and the error flag. -/
structure ContactsOutcome where
  state : List ContactRec
  cacheWrite : Option (List ContactRec)
  error : Option String

/-- `updateContact` (lines 444-484) in the authenticated case.  The hook
applies the merged record optimistically, then on ANY remote failure
restores `originalContacts` in both state and cache ("Reverting local
changes"); on success it swaps in the returned document (the cache update
reuses the stale pre-update `contacts` closure value, as the source
does). -/
def updateContactAuth (contacts : List ContactRec) (u : ContactPatch)
    (remote : RemoteOutcome ContactRec) : ContactsOutcome :=
  let optimistic :=
    contacts.map (fun c => if c.id = u.id then mergeContact c u else c)
  match remote with
  | .ok response =>
    { state := optimistic.map (fun c => if c.id = response.id then response else c)
      cacheWrite :=
        some (contacts.map (fun c => if c.id = response.id then response else c))
      error := none }
  | _ =>
    { state := contacts
      cacheWrite := some contacts
      error := some "Failed to update contact in database. Reverting local changes." }

/-! ## In-flight suppression in the load routines (claim C3)

JS is single-threaded: a second "concurrent" invocation runs its synchronous
prefix while the first is suspended at an `await`.  Each `*Start` function
below is the synchronous prefix of the corresponding load routine up to its
first remote fetch, acting on the guard flag and a fetch counter. -/

/-- Guard flag plus a count of remote fetches issued. -/
structure LoadSync where
  inFlight : Bool
  fetches : Nat

/-- Synchronous prefix of `loadProfile` (part_001 lines 136-177): the
`loadingRef` early return, the unauthenticated early return, then
`loadingRef.current = true` before the `getDocument` fetch. -/
def loadProfileStart (auth : Bool) (st : LoadSync) : LoadSync :=
  if st.inFlight then st
  else if !auth then st
  else { inFlight := true, fetches := st.fetches + 1 }

/-- The `finally` block of `loadProfile` (line 321) resets the flag. -/
def loadProfileFinish (st : LoadSync) : LoadSync :=
  { st with inFlight := false }

/-- Synchronous prefix of `loadQrSettings` (part_005 lines 73-171): early
returns while auth is unresolved or absent, then — with no in-flight
guard — the `listDocuments` fetch. -/
def loadQrSettingsStart (authLoading auth : Bool) (st : LoadSync) : LoadSync :=
  if authLoading then st
  else if !auth then st
  else { st with fetches := st.fetches + 1 }

/-- Synchronous prefix of `loadContacts` (part_005 lines 358-390): no
guard; the `listDocuments` fetch runs whenever a user id is present. -/
def loadContactsStart (auth : Bool) (st : LoadSync) : LoadSync :=
  if auth then { st with fetches := st.fetches + 1 } else st

/-- The three entity sync hooks. -/
inductive SyncHook where
  | profile
  | qrSettings
  | contacts
deriving DecidableEq

/-- The load routine's synchronous prefix for each hook, in the
authenticated, auth-resolved situation the duplicate-suppression claim is
about. -/
def hookStart : SyncHook → LoadSync → LoadSync
  | .profile => loadProfileStart true
  | .qrSettings => loadQrSettingsStart false true
  | .contacts => loadContactsStart true

/-- Remote fetches issued when a second invocation of the same load routine
starts while the first is still in flight (neither has reached its
`finally`). -/
def overlappedFetches (h : SyncHook) : Nat :=
  (hookStart h (hookStart h ⟨false, 0⟩)).fetches

/-! ## Statements of the specification's claims

The `qrCond*` predicates are the seven dispatch conditions exactly as the
specification words them; `specDispatch` is the dispatch policy in the
specification's first-match shape, for comparison with `parseQrDataL`. -/

/-- Dispatch condition 1: payload starts with `BEGIN:VCARD`. -/
def qrCond1 (s : List Char) : Bool := "BEGIN:VCARD".data.isPrefixOf s

/-- Dispatch condition 2: payload starts with `MECARD:`. -/
def qrCond2 (s : List Char) : Bool := "MECARD:".data.isPrefixOf s

/-- Dispatch condition 3 as the specification states it: the trimmed
payload starts with `{` and ends with `}`. -/
def qrCond3 (s : List Char) : Bool := bracesCond s

/-- Dispatch condition 4: payload starts with `http`. -/
def qrCond4 (s : List Char) : Bool := "http".data.isPrefixOf s

/-- Dispatch condition 5: payload contains both `@` and `.`. -/
def qrCond5 (s : List Char) : Bool := s.contains '@' && s.contains '.'

/-- Dispatch condition 6: payload matches `/^[+\d\s-()]+$/`. -/
def qrCond6 (s : List Char) : Bool := phoneTest s

/-- Claim C1 as stated: the result of `parseQrData` is produced by the
first branch, in order, whose condition holds — with the JSON branch
condition being the purely syntactic brace test of the spec. -/
def C1Claim : Prop :=
  ∀ s : List Char,
    (qrCond1 s = true → parseQrDataL s = .ok (some (parseVCardL s))) ∧
    (qrCond1 s = false → qrCond2 s = true →
      parseQrDataL s = .ok (some (parseMeCardL s))) ∧
    (qrCond1 s = false → qrCond2 s = false → qrCond3 s = true →
      ∃ j, jsonParseL s = some j ∧ parseQrDataL s = .ok (some (jsonContact j))) ∧
    (qrCond1 s = false → qrCond2 s = false → qrCond3 s = false →
      qrCond4 s = true →
      parseQrDataL s = (match urlParseL s with
        | none => .error .invalidUrl
        | some hostname => .ok (some (urlContact s hostname)))) ∧
    (qrCond1 s = false → qrCond2 s = false → qrCond3 s = false →
      qrCond4 s = false → qrCond5 s = true →
      parseQrDataL s = .ok (some (emailContact s))) ∧
    (qrCond1 s = false → qrCond2 s = false → qrCond3 s = false →
      qrCond4 s = false → qrCond5 s = false → qrCond6 s = true →
      parseQrDataL s = .ok (some (phoneContact s))) ∧
    (qrCond1 s = false → qrCond2 s = false → qrCond3 s = false →
      qrCond4 s = false → qrCond5 s = false → qrCond6 s = false →
      parseQrDataL s = .ok (some (textContact s)))

/-- The dispatch policy in the specification's first-match form, amended
where the code forces it: the empty payload short-circuits to `null`
before any branch, and the JSON branch produces the result only when
`JSON.parse` succeeds (otherwise dispatch falls through). -/
def specDispatch (s : List Char) : Except QrError (Option PartialContact) :=
  if s.isEmpty then .ok none
  else if qrCond1 s then .ok (some (parseVCardL s))
  else if qrCond2 s then .ok (some (parseMeCardL s))
  else if qrCond3 s && (jsonParseL s).isSome then
    .ok (some (jsonContact ((jsonParseL s).getD .null)))
  else if qrCond4 s then
    match urlParseL s with
    | none => .error .invalidUrl
    | some hostname => .ok (some (urlContact s hostname))
  else if qrCond5 s then .ok (some (emailContact s))
  else if qrCond6 s then .ok (some (phoneContact s))
  else .ok (some (textContact s))

/-- Claim C2 as stated: `parseQrData` never raises for any input, and any
raised parse exception is caught by `handleQrDetected`, which reports the
generic could-not-parse state. -/
def C2Claim : Prop :=
  (∀ s : List Char, ∃ r, parseQrDataL s = .ok r) ∧
  (∀ (s : List Char) (e : QrError), parseQrDataL s = .error e →
    handleQrDetectedL s = .errorState "Could not parse QR code data")

/-- Claim C3 as stated: for every entity sync hook, two overlapping
invocations of the load routine issue at most one remote fetch. -/
def C3Claim : Prop :=
  ∀ h : SyncHook, overlappedFetches h ≤ 1

/-- Claim C4 as stated: on an unclassified remote failure, every entity
hook's update keeps the optimistic (merged) state in memory and surfaces an
error flag — no rollback to the pre-update value. -/
def C4Claim : Prop :=
  (∀ (p : ProfileState) (u : ProfilePatch) (user : UserInfo)
      (uid : List Char) (cr : RemoteOutcome ProfileDoc),
    (updateProfileAuth p u user uid .failure cr).state = mergeProfile p u ∧
    (updateProfileAuth p u user uid .failure cr).error ≠ none) ∧
  (∀ (s : QrSettingsT) (u : QrPatch),
    (updateQrSettingsAuth s u .failure).state = mergeQr s u ∧
    (updateQrSettingsAuth s u .failure).error ≠ none) ∧
  (∀ (cs : List ContactRec) (u : ContactPatch),
    (updateContactAuth cs u .failure).state =
      cs.map (fun c => if c.id = u.id then mergeContact c u else c) ∧
    (updateContactAuth cs u .failure).error ≠ none)

/-- The trimmed lines `parseVCard` iterates over. -/
def linesOf (s : List Char) : List (List Char) :=
  (splitNewlines s).map trimL

/-- Is this a vCard `FN` property line: its key (the text before the first
colon, stripped of `;`-separated parameters) is `FN`? -/
def isFnLine (l : List Char) : Bool :=
  match splitFirstColon l with
  | some bv => firstSemiSeg bv.1 = "FN".data
  | none => false

/-- The verbatim value of a property line: the whole text after the first
colon. -/
def fnValue (l : List Char) : List Char :=
  ((splitFirstColon l).getD ([], [])).2

/-- Claim C7 as stated: for every vCard input containing an `FN` line, the
parsed name is the first `FN` line's value verbatim. -/
def C7Claim : Prop :=
  ∀ s : List Char, ((linesOf s).find? isFnLine).isSome →
    (parseVCardL s).name =
      some (.str (fnValue (((linesOf s).find? isFnLine).getD [])))

/-- The name-segment candidate a vCard line contributes: for a non-skipped
`FN` or `N` line, the first `;`-delimited segment of its value. -/
def lineNameSeg (line : List Char) : Option (List Char) :=
  if "BEGIN:".data.isPrefixOf line || "END:".data.isPrefixOf line ||
      "VERSION:".data.isPrefixOf line then none
  else
    match splitFirstColon line with
    | none => none
    | some bv =>
      if firstSemiSeg bv.1 = "FN".data || firstSemiSeg bv.1 = "N".data then
        some (firstSemiSeg bv.2)
      else none

/-- How `parseVCard`'s `if (!contact.name)` guard folds name candidates: a
truthy name is kept, otherwise the candidate is assigned. -/
def nameScan : Option Json → List (List Char) → Option Json
  | cur, [] => cur
  | cur, seg :: rest =>
    nameScan (if optTruthy cur then cur else some (.str seg)) rest

/-- The first non-empty segment of a candidate list (empty string if every
candidate is empty). -/
def specSeg (segs : List (List Char)) : List Char :=
  (segs.filter (fun l => !l.isEmpty)).headD []

/-! ## Split / replace lemmas -/

theorem splitOnCharL_of_not_mem {c : Char} {xs : List Char} (h : c ∉ xs) :
    splitOnCharL c xs = [xs] := by
  induction xs with
  | nil => rfl
  | cons x t ih =>
    have hx : x ≠ c := fun he => h (he ▸ List.mem_cons_self x t)
    have ht : c ∉ t := fun hm => h (List.mem_cons_of_mem x hm)
    simp only [splitOnCharL, if_neg hx, ih ht]

theorem splitOnCharL_append_sep {c : Char} {xs : List Char} (ys : List Char)
    (h : c ∉ xs) :
    splitOnCharL c (xs ++ c :: ys) = xs :: splitOnCharL c ys := by
  induction xs with
  | nil => simp [splitOnCharL]
  | cons x t ih =>
    have hx : x ≠ c := fun he => h (he ▸ List.mem_cons_self x t)
    have ht : c ∉ t := fun hm => h (List.mem_cons_of_mem x hm)
    simp only [List.cons_append, splitOnCharL, if_neg hx]
    have h2 : splitOnCharL c (t.append (c :: ys)) = t :: splitOnCharL c ys :=
      ih ht
    rw [h2]

theorem replaceFirstComma_append {a : List Char} (b : List Char)
    (h : (',' : Char) ∉ a) :
    replaceFirstComma (a ++ ',' :: b) = a ++ ' ' :: b := by
  induction a with
  | nil => simp [replaceFirstComma]
  | cons x t ih =>
    have hx : x ≠ ',' := fun he => h (he ▸ List.mem_cons_self x t)
    have ht : (',' : Char) ∉ t := fun hm => h (List.mem_cons_of_mem x hm)
    simp only [List.cons_append, replaceFirstComma, if_neg hx]
    exact congrArg (x :: ·) (ih ht)

/-! ## `metAt` is never touched after initialization -/

theorem vstep_metAt (st : VState) (l : List Char) :
    (vstep st l).contact.metAt = st.contact.metAt := by
  unfold vstep
  split
  · rfl
  · split
    · rfl
    · split
      · rfl
      · dsimp only
        split_ifs <;> rfl

theorem vfold_metAt (lines : List (List Char)) (st : VState) :
    ((lines.foldl vstep st).contact).metAt = st.contact.metAt := by
  induction lines generalizing st with
  | nil => rfl
  | cons l t ih => rw [List.foldl_cons, ih, vstep_metAt]

theorem parseVCardL_metAt (s : List Char) :
    (parseVCardL s).metAt = some (.str "QR Code Scan".data) := by
  unfold parseVCardL
  rw [vfold_metAt]
  rfl

theorem mstep_metAt (c : PartialContact) (field : List Char) :
    (mstep c field).metAt = c.metAt := by
  unfold mstep
  dsimp only
  split
  · rfl
  · split_ifs <;> rfl

theorem mfold_metAt (fields : List (List Char)) (c : PartialContact) :
    (fields.foldl mstep c).metAt = c.metAt := by
  induction fields generalizing c with
  | nil => rfl
  | cons f t ih => rw [List.foldl_cons, ih, mstep_metAt]

theorem parseMeCardL_metAt (s : List Char) :
    (parseMeCardL s).metAt = some (.str "QR Code Scan".data) := by
  unfold parseMeCardL
  rw [mfold_metAt]

theorem urlContact_metAt (d h : List Char) :
    (urlContact d h).metAt = some (.str "QR Code Scan".data) := by
  unfold urlContact
  split_ifs <;> rfl

/-- C10: every non-null partial contact returned by `parseQrData` carries
the meeting-context label `metAt = "QR Code Scan"` — every branch of the
dispatch, including both sub-parsers, sets this same constant. -/
theorem parseQrData_metAt (s : List Char) (c : PartialContact)
    (h : parseQrDataL s = .ok (some c)) :
    c.metAt = some (.str "QR Code Scan".data) := by
  unfold parseQrDataL at h
  split at h
  · simp at h
  · split at h
    · simp only [Except.ok.injEq, Option.some.injEq] at h
      rw [← h]
      exact parseVCardL_metAt s
    · split at h
      · simp only [Except.ok.injEq, Option.some.injEq] at h
        rw [← h]
        exact parseMeCardL_metAt s
      · split at h
        · simp only [Except.ok.injEq, Option.some.injEq] at h
          rw [← h]
          rfl
        · split at h
          · split at h
            · exact absurd h (by simp)
            · simp only [Except.ok.injEq, Option.some.injEq] at h
              rw [← h]
              exact urlContact_metAt _ _
          · split at h
            · simp only [Except.ok.injEq, Option.some.injEq] at h
              rw [← h]
              rfl
            · split at h
              · simp only [Except.ok.injEq, Option.some.injEq] at h
                rw [← h]
                rfl
              · simp only [Except.ok.injEq, Option.some.injEq] at h
                rw [← h]
                rfl

/-- Witness for C10 at the concrete input `"hello"` (text-note branch). -/
theorem parseQrData_metAt_witness :
    (textContact "hello".data).metAt = some (.str "QR Code Scan".data) :=
  parseQrData_metAt "hello".data (textContact "hello".data) rfl

/-- C8: the end-to-end MeCard scenario
`"MECARD:N:Doe,Jane;TEL:5551234;EMAIL:jane@x.com;;"` parses to name
`"Doe Jane"`, phone `"5551234"`, email `"jane@x.com"`; and in general an
`N:a,b` field (`a`, `b` free of the MeCard metacharacters) yields the name
`a ++ " " ++ b`, the first comma replaced by a single space. -/
theorem parseMeCard_name_scenario :
    ((parseMeCard "MECARD:N:Doe,Jane;TEL:5551234;EMAIL:jane@x.com;;").name =
        some (.str "Doe Jane".data) ∧
      (parseMeCard "MECARD:N:Doe,Jane;TEL:5551234;EMAIL:jane@x.com;;").phone =
        some (.str "5551234".data) ∧
      (parseMeCard "MECARD:N:Doe,Jane;TEL:5551234;EMAIL:jane@x.com;;").email =
        some (.str "jane@x.com".data)) ∧
    ∀ a b : List Char, (';' : Char) ∉ a → (':' : Char) ∉ a →
      (',' : Char) ∉ a → (';' : Char) ∉ b → (':' : Char) ∉ b →
      (parseMeCardL ("MECARD:N:".data ++ a ++ ',' :: b ++ [';', ';'])).name =
        some (.str (a ++ ' ' :: b)) := by
  constructor
  · exact ⟨rfl, rfl, rfl⟩
  · intro a b hsa hca hma hsb hcb
    have h9 : "MECARD:N:".data = ['M', 'E', 'C', 'A', 'R', 'D', ':', 'N', ':'] := rfl
    have hdrop : ("MECARD:N:".data ++ a ++ ',' :: b ++ [';', ';']).drop 7 =
        ('N' :: ':' :: (a ++ ',' :: b)) ++ ';' :: [';'] := by
      rw [h9]
      simp [List.append_assoc]
    have hnotin : (';' : Char) ∉ 'N' :: ':' :: (a ++ ',' :: b) := by
      simp only [List.mem_cons, List.mem_append]
      push_neg
      refine ⟨by decide, by decide, hsa, by decide, hsb⟩
    have hfields : splitOnCharL ';'
        (('N' :: ':' :: (a ++ ',' :: b)) ++ ';' :: [';']) =
        ('N' :: ':' :: (a ++ ',' :: b)) :: [[], []] := by
      rw [splitOnCharL_append_sep _ hnotin]
      rfl
    have hv : (':' : Char) ∉ a ++ ',' :: b := by
      simp only [List.mem_cons, List.mem_append]
      push_neg
      exact ⟨hca, by decide, hcb⟩
    have hparts : splitOnCharL ':' ('N' :: ':' :: (a ++ ',' :: b)) =
        ['N'] :: [a ++ ',' :: b] := by
      have : ('N' :: ':' :: (a ++ ',' :: b)) = ['N'] ++ ':' :: (a ++ ',' :: b) := rfl
      rw [this, splitOnCharL_append_sep _ (by decide),
        splitOnCharL_of_not_mem hv]
    have hne : (a ++ ',' :: b).isEmpty = false := by
      simp [List.isEmpty_iff]
    unfold parseMeCardL
    rw [hdrop, hfields]
    simp only [List.foldl_cons, List.foldl_nil]
    rw [show ∀ c : PartialContact, mstep (mstep c []) [] = c from fun c => rfl]
    unfold mstep
    rw [hparts]
    simp only [List.take, List.get?, hne, Bool.false_eq_true, if_false,
      List.headD]
    simp only [if_true]
    rw [replaceFirstComma_append b hma]

/-- Witness for C8's general conjunct at `a = "Doe"`, `b = "John"`. -/
theorem parseMeCard_name_scenario_witness :
    (parseMeCardL ("MECARD:N:".data ++ "Doe".data ++ ',' :: "John".data ++
      [';', ';'])).name = some (.str ("Doe".data ++ ' ' :: "John".data)) :=
  parseMeCard_name_scenario.2 "Doe".data "John".data (by decide) (by decide)
    (by decide) (by decide) (by decide)

/-- C9 (divergence witness): the MeCard field split `field.split(":", 2)`
truncates a URL value at its second colon, so the `website` social entry
for `MECARD:URL:http://example.com;;` is `"http"`, not the full URL. -/
theorem parseMeCard_url_truncated :
    (parseMeCard "MECARD:URL:http://example.com;;").socials =
      some (.obj [("website", .str "http".data)]) := rfl

/-! ## vCard name tracking (claim C7) -/

theorem dropWhile_head_false (p : Char → Bool) :
    ∀ (xs : List Char) {h t}, xs.dropWhile p = h :: t → p h = false := by
  intro xs
  induction xs with
  | nil => intro h t hht; cases hht
  | cons x rest ih =>
    intro h t hht
    rw [List.dropWhile_cons] at hht
    by_cases hx : p x = true
    · exact ih (by rwa [if_pos hx] at hht)
    · rw [if_neg hx] at hht
      cases hht
      exact Bool.eq_false_iff.mpr hx

theorem trim_no_leading_space (xs : List Char) :
    " ".data.isPrefixOf (trimL xs) = false := by
  cases h : trimL xs with
  | nil => rfl
  | cons a t =>
    have hpre : trimL xs <+: xs.dropWhile isJsSpace :=
      List.rdropWhile_prefix isJsSpace (xs.dropWhile isJsSpace)
    rw [h] at hpre
    obtain ⟨zs, hzs⟩ := hpre
    have ha : isJsSpace a = false :=
      dropWhile_head_false isJsSpace xs (by rw [← hzs]; rfl)
    have hne : (' ' == a) = false := by
      cases hsp : (' ' == a)
      · rfl
      · exfalso
        have : a = ' ' := (beq_iff_eq.mp hsp).symm
        rw [this] at ha
        simp [isJsSpace] at ha
    show ([' '].isPrefixOf (a :: t)) = false
    simp only [List.isPrefixOf, hne, Bool.false_and]

theorem takeWhile_append_colon {p : List Char} (t : List Char)
    (hp : (':' : Char) ∉ p) :
    (p ++ ':' :: t).takeWhile (· ≠ ':') = p := by
  induction p with
  | nil => simp [List.takeWhile_cons]
  | cons x r ih =>
    have hx : x ≠ ':' := fun he => hp (he ▸ List.mem_cons_self x r)
    have hr : (':' : Char) ∉ r := fun hm => hp (List.mem_cons_of_mem x hm)
    simp only [List.cons_append, List.takeWhile_cons, decide_eq_true_eq,
      if_pos hx, ih hr]

theorem dropWhile_append_colon {p : List Char} (t : List Char)
    (hp : (':' : Char) ∉ p) :
    (p ++ ':' :: t).dropWhile (· ≠ ':') = ':' :: t := by
  induction p with
  | nil => simp [List.dropWhile_cons]
  | cons x r ih =>
    have hx : x ≠ ':' := fun he => hp (he ▸ List.mem_cons_self x r)
    have hr : (':' : Char) ∉ r := fun hm => hp (List.mem_cons_of_mem x hm)
    simp only [List.cons_append, List.dropWhile_cons, decide_eq_true_eq]
    rw [if_pos hx]
    exact ih hr

theorem splitFirstColon_prefixed (p t : List Char) (hp : (':' : Char) ∉ p) :
    splitFirstColon (p ++ ':' :: t) = some (p, t) := by
  unfold splitFirstColon
  rw [if_pos]
  · rw [takeWhile_append_colon t hp, dropWhile_append_colon t hp]
    rfl
  · simp [List.contains]

/-- A line whose property key is `FN` is not skipped and contributes its
value's first `;`-segment as a name candidate. -/
theorem isFn_lineNameSeg {l : List Char} (h : isFnLine l = true) :
    ∃ seg, lineNameSeg l = some seg := by
  unfold isFnLine at h
  rcases hc : splitFirstColon l with _ | bv
  · rw [hc] at h; cases h
  · rw [hc] at h
    have hkey : firstSemiSeg bv.1 = "FN".data := by
      simpa using h
    have hskip : ("BEGIN:".data.isPrefixOf l || "END:".data.isPrefixOf l ||
        "VERSION:".data.isPrefixOf l) = false := by
      have gen : ∀ (q : List Char), (':' : Char) ∉ q →
          firstSemiSeg q ≠ "FN".data → (q ++ [':']).isPrefixOf l = false := by
        intro q hq hqf
        cases hpre : (q ++ [':']).isPrefixOf l
        · rfl
        · exfalso
          obtain ⟨u, hu⟩ := List.isPrefixOf_iff_prefix.mp hpre
          have hl : l = q ++ ':' :: u := by
            rw [← hu, List.append_assoc]; rfl
          rw [hl, splitFirstColon_prefixed q u hq] at hc
          cases hc
          exact hqf hkey
      have h1 : ("BEGIN:".data.isPrefixOf l) = false :=
        gen "BEGIN".data (by decide) (by decide)
      have h2 : ("END:".data.isPrefixOf l) = false :=
        gen "END".data (by decide) (by decide)
      have h3 : ("VERSION:".data.isPrefixOf l) = false :=
        gen "VERSION".data (by decide) (by decide)
      rw [h1, h2, h3]
      rfl
    refine ⟨firstSemiSeg bv.2, ?_⟩
    unfold lineNameSeg
    rw [hskip]
    simp only [Bool.false_eq_true, if_false, hc]
    rw [if_pos]
    simp [hkey]

theorem nameScan_truthy (segs : List (List Char)) (cur : Option Json)
    (h : optTruthy cur = true) : nameScan cur segs = cur := by
  induction segs with
  | nil => rfl
  | cons seg rest ih => simp only [nameScan, if_pos h, ih]

theorem nameScan_falsy (segs : List (List Char)) (cur : Option Json)
    (hcur : optTruthy cur = false) (hne : segs ≠ []) :
    nameScan cur segs = some (.str (specSeg segs)) := by
  induction segs generalizing cur with
  | nil => exact absurd rfl hne
  | cons seg rest ih =>
    simp only [nameScan, hcur, Bool.false_eq_true, if_false]
    by_cases hs : seg.isEmpty = true
    · have hseg : seg = [] := by simpa [List.isEmpty_iff] using hs
      subst hseg
      cases rest with
      | nil => rfl
      | cons r rt =>
        rw [ih (some (.str [])) (by rfl) (by simp)]
        simp [specSeg, List.filter]
    · have htr : optTruthy (some (Json.str seg)) = true := by
        simpa [optTruthy, jsTruthy] using hs
      rw [nameScan_truthy rest _ htr]
      simp only [specSeg, List.filter, hs]
      simp

theorem vstep_name (st : VState) (l : List Char)
    (hsp : " ".data.isPrefixOf l = false) :
    (vstep st l).contact.name =
      match lineNameSeg l with
      | none => st.contact.name
      | some seg =>
        if optTruthy st.contact.name then st.contact.name
        else some (.str seg) := by
  unfold vstep lineNameSeg
  by_cases hb : ("BEGIN:".data.isPrefixOf l || "END:".data.isPrefixOf l ||
      "VERSION:".data.isPrefixOf l) = true
  · rw [if_pos hb, if_pos hb]
  · rw [if_neg hb, if_neg hb, if_neg (by simp [hsp])]
    rcases hc : splitFirstColon l with _ | bv
    · rfl
    · dsimp only
      by_cases hk : (firstSemiSeg bv.1 = "FN".data ||
          firstSemiSeg bv.1 = "N".data : Bool) = true
      · rw [if_pos hk, if_pos hk]
        dsimp only
        by_cases hn : optTruthy st.contact.name = true
        · rw [if_neg (by simp [hn]), if_pos hn]
        · have hn' : optTruthy st.contact.name = false := by simpa using hn
          rw [if_pos (by simp [hn']), if_neg hn]
      · rw [if_neg hk, if_neg hk]
        dsimp only
        split_ifs <;> rfl

theorem vfold_name :
    ∀ (lines : List (List Char)) (st : VState),
      (∀ l ∈ lines, " ".data.isPrefixOf l = false) →
      ((lines.foldl vstep st).contact).name =
        nameScan st.contact.name (lines.filterMap lineNameSeg) := by
  intro lines
  induction lines with
  | nil => intro st _; rfl
  | cons l t ih =>
    intro st hsp
    have hl := hsp l (List.mem_cons_self l t)
    have ht : ∀ x ∈ t, " ".data.isPrefixOf x = false :=
      fun x hx => hsp x (List.mem_cons_of_mem l hx)
    rw [List.foldl_cons, ih (vstep st l) ht, List.filterMap_cons]
    rcases hseg : lineNameSeg l with _ | seg
    · rw [show (vstep st l).contact.name = st.contact.name from by
        rw [vstep_name st l hl, hseg]]
    · rw [show (vstep st l).contact.name =
          (if optTruthy st.contact.name then st.contact.name
            else some (.str seg)) from by rw [vstep_name st l hl, hseg]]
      rfl

theorem linesOf_no_leading_space (s : List Char) :
    ∀ l ∈ linesOf s, " ".data.isPrefixOf l = false := by
  intro l hl
  obtain ⟨l₀, -, hl₀⟩ := List.mem_map.mp hl
  rw [← hl₀]
  exact trim_no_leading_space l₀

/-- C7 (counterexample): for the vCard `BEGIN:VCARD\nFN:Doe;Jane\nEND:VCARD`
the first `FN` value verbatim is `"Doe;Jane"`, but the parser stores only
the first `;`-segment `"Doe"` — so the claim that the name equals the first
`FN` value verbatim is false. -/
theorem parseVCard_fn_verbatim_false : ¬ C7Claim := by
  intro h
  have h1 := h "BEGIN:VCARD\nFN:Doe;Jane\nEND:VCARD".data rfl
  have e1 : (parseVCardL "BEGIN:VCARD\nFN:Doe;Jane\nEND:VCARD".data).name =
      some (Json.str "Doe".data) := rfl
  have e2 : fnValue (((linesOf "BEGIN:VCARD\nFN:Doe;Jane\nEND:VCARD".data).find?
      isFnLine).getD []) = "Doe;Jane".data := rfl
  rw [e1, e2] at h1
  injection h1 with h2
  injection h2 with h3
  exact absurd h3 (by decide)

/-- C7 (amended): for every vCard input containing an `FN` property line,
the parsed name is the first semicolon-delimited segment of the value of
the first `FN`-or-`N` line whose segment is non-empty (the empty string if
every such segment is empty) — not the verbatim `FN` value, and an earlier
`N` line takes precedence over the `FN` line. -/
theorem parseVCard_name_first_fnn (s : List Char)
    (h : ((linesOf s).find? isFnLine).isSome) :
    (parseVCardL s).name =
      some (.str (specSeg ((linesOf s).filterMap lineNameSeg))) := by
  obtain ⟨l, hfind⟩ := Option.isSome_iff_exists.mp h
  have hmem : l ∈ linesOf s := List.mem_of_find?_eq_some hfind
  have hfn : isFnLine l = true := List.find?_some hfind
  obtain ⟨seg, hseg⟩ := isFn_lineNameSeg hfn
  have hne : (linesOf s).filterMap lineNameSeg ≠ [] := by
    intro hnil
    have := (List.filterMap_eq_nil_iff.mp hnil) l hmem
    rw [hseg] at this
    cases this
  have hdef : parseVCardL s = ((linesOf s).foldl vstep vcardInit).contact := rfl
  rw [hdef, vfold_name (linesOf s) vcardInit (linesOf_no_leading_space s)]
  exact nameScan_falsy _ _ rfl hne

/-- Witness for C7 (amended) at a concrete single-`FN` vCard. -/
theorem parseVCard_name_first_fnn_witness :
    (parseVCardL "BEGIN:VCARD\nFN:Jane Doe\nEND:VCARD".data).name =
      some (.str (specSeg ((linesOf "BEGIN:VCARD\nFN:Jane Doe\nEND:VCARD".data).filterMap
        lineNameSeg))) :=
  parseVCard_name_first_fnn "BEGIN:VCARD\nFN:Jane Doe\nEND:VCARD".data rfl

/-! ## Dispatch order (claim C1) -/

/-- C1 (counterexample): at the payload `"{a@b.c}"` the syntactic JSON
condition (trimmed braces) holds, but `JSON.parse` fails and the result is
produced by the later email branch — so first-match dispatch over the
claim's purely syntactic conditions is false. -/
theorem parseQrData_first_match_claim_false : ¬ C1Claim := by
  intro h
  obtain ⟨j, hj, -⟩ := ((h "{a@b.c}".data).2.2.1) rfl rfl rfl
  have hnone : jsonParseL "{a@b.c}".data = none := rfl
  rw [hnone] at hj
  cases hj

/-- C1 (amended): `parseQrData` equals first-match dispatch over the
ordered conditions, refined in two forced places: the empty payload yields
`null` before any branch, and the JSON branch produces the result only when
the brace test holds AND `JSON.parse` succeeds (on parse failure dispatch
falls through to the URL/email/phone/text branches). -/
theorem parseQrData_eq_specDispatch (s : List Char) :
    parseQrDataL s = specDispatch s := by
  unfold parseQrDataL specDispatch qrCond1 qrCond2 qrCond3 qrCond4 qrCond5
    qrCond6
  by_cases h0 : s.isEmpty = true
  · rw [if_pos h0, if_pos h0]
  · rw [if_neg h0, if_neg h0]
    by_cases h1 : "BEGIN:VCARD".data.isPrefixOf s = true
    · rw [if_pos h1, if_pos h1]
    · rw [if_neg h1, if_neg h1]
      by_cases h2 : "MECARD:".data.isPrefixOf s = true
      · rw [if_pos h2, if_pos h2]
      · rw [if_neg h2, if_neg h2]
        by_cases h3 : bracesCond s = true
        · rcases hj : jsonParseL s with _ | j
          · rw [if_pos h3]
            dsimp only
            simp only [Option.isSome_none, Bool.and_false, Bool.false_eq_true,
              if_false]
          · rw [if_pos h3]
            dsimp only
            rw [if_pos (by simp [h3])]
            rfl
        · have hb : bracesCond s = false := by simpa using h3
          rw [if_neg h3]
          dsimp only
          simp only [hb, Bool.false_and, Bool.false_eq_true, if_false]

/-! ## Exception behavior (claim C2) -/

theorem parseQrDataL_error_imp_http (s : List Char) (e : QrError)
    (h : parseQrDataL s = .error e) : "http".data.isPrefixOf s = true := by
  unfold parseQrDataL at h
  by_cases h0 : s.isEmpty = true
  · rw [if_pos h0] at h; cases h
  rw [if_neg h0] at h
  by_cases h1 : "BEGIN:VCARD".data.isPrefixOf s = true
  · rw [if_pos h1] at h; cases h
  rw [if_neg h1] at h
  by_cases h2 : "MECARD:".data.isPrefixOf s = true
  · rw [if_pos h2] at h; cases h
  rw [if_neg h2] at h
  rcases hj : (if bracesCond s = true then jsonParseL s else none) with _ | j
  · rw [hj] at h
    dsimp only at h
    by_cases h4 : "http".data.isPrefixOf s = true
    · exact h4
    · rw [if_neg h4] at h
      split_ifs at h
  · rw [hj] at h
    dsimp only at h
    cases h

theorem http_trim_nonempty (s : List Char)
    (h : "http".data.isPrefixOf s = true) : (trimL s).isEmpty = false := by
  obtain ⟨t, ht⟩ := List.isPrefixOf_iff_prefix.mp h
  have hh : ('h' : Char) ∈ s := by
    rw [← ht]; exact List.mem_append_left _ (by decide)
  have hne : trimL s ≠ [] := by
    intro hnil
    have hdw : s.dropWhile isJsSpace = s := by
      rw [← ht]; rfl
    rw [trimL, hdw] at hnil
    have := List.rdropWhile_eq_nil_iff.mp hnil 'h' hh
    simp [isJsSpace] at this
  cases he : (trimL s).isEmpty
  · rfl
  · exact absurd (List.isEmpty_iff.mp he) hne

/-- C2 (amended): `parseQrData` CAN raise — but only for a payload starting
with `http` (the uncaught `new URL` throw); and whenever it raises, the
caller `handleQrDetected` catches the exception, sets the generic
could-not-parse error state, and creates no contact. -/
theorem parseQrData_throw_caught :
    (∀ (s : List Char) (e : QrError), parseQrDataL s = .error e →
      qrCond4 s = true) ∧
    (∀ (s : List Char) (e : QrError), parseQrDataL s = .error e →
      handleQrDetectedL s = .errorState "Could not parse QR code data") := by
  constructor
  · exact fun s e h => parseQrDataL_error_imp_http s e h
  · intro s e h
    have hhttp := parseQrDataL_error_imp_http s e h
    have htrim := http_trim_nonempty s hhttp
    have hne : s.isEmpty = false := by
      cases s with
      | nil => exact absurd hhttp (by decide)
      | cons a t => rfl
    unfold handleQrDetectedL
    rw [if_neg (by simp [hne, htrim]), h]

/-- Witness for C2 (amended) at the throwing payload `"httpnotaurl"`. -/
theorem parseQrData_throw_caught_witness :
    handleQrDetectedL "httpnotaurl".data =
      .errorState "Could not parse QR code data" :=
  parseQrData_throw_caught.2 "httpnotaurl".data .invalidUrl rfl

/-- C2 (counterexample): the claim that `parseQrData` returns without
throwing for EVERY input fails at `"httpnotaurl"`, where `new URL` throws
(`Except.error`). -/
theorem parseQrData_never_throws_false : ¬ C2Claim := by
  intro h
  obtain ⟨r, hr⟩ := h.1 "httpnotaurl".data
  have he : parseQrDataL "httpnotaurl".data = .error .invalidUrl := rfl
  rw [he] at hr
  cases hr

/-! ## In-flight suppression (claim C3) -/

/-- C3 (counterexample): the QR-settings hook's load routine has no
in-flight guard flag, so two overlapping invocations issue two remote
fetches — the at-most-one-fetch claim fails for that hook (and for the
contacts hook). -/
theorem load_suppression_every_hook_false : ¬ C3Claim := by
  intro h
  exact absurd (h .qrSettings) (by decide)

/-- C3 (amended): the in-flight guard exists only in the profile hook: a
second `loadProfile` starting while the flag is set performs no fetch, so
two overlapping profile loads issue exactly one fetch — while the
QR-settings and contacts load routines, which have no guard, issue two. -/
theorem loadProfile_suppresses_overlap :
    (∀ st : LoadSync, st.inFlight = true →
      (loadProfileStart true st).fetches = st.fetches) ∧
    overlappedFetches SyncHook.profile = 1 ∧
    overlappedFetches SyncHook.qrSettings = 2 ∧
    overlappedFetches SyncHook.contacts = 2 := by
  refine ⟨?_, rfl, rfl, rfl⟩
  intro st h
  unfold loadProfileStart
  rw [if_pos h]

/-- Witness for C3 (amended): a second call with the guard flag set adds no
fetch. -/
theorem loadProfile_suppresses_overlap_witness :
    (loadProfileStart true ⟨true, 3⟩).fetches = (⟨true, 3⟩ : LoadSync).fetches :=
  loadProfile_suppresses_overlap.1 ⟨true, 3⟩ rfl

/-! ## Failure policy of the update operations (claim C4) -/

/-- C4 (counterexample): the contacts hook ROLLS BACK on an unclassified
remote failure ("Reverting local changes"): with one contact whose `notes`
is `"a"` and an update setting it to `"b"`, the final state is the original
list, not the optimistic merged list the claim requires. -/
theorem update_keeps_optimistic_claim_false : ¬ C4Claim := by
  intro h
  have hc := (h.2.2 [⟨"1".data, [("notes", Json.str "a".data)]⟩]
    ⟨"1".data, [("notes", Json.str "b".data)]⟩).1
  have he : ([⟨"1".data, [("notes", Json.str "a".data)]⟩] :
        List ContactRec).map
      (fun c => if c.id = (⟨"1".data, [("notes", Json.str "b".data)]⟩ :
          ContactPatch).id then
        mergeContact c ⟨"1".data, [("notes", Json.str "b".data)]⟩ else c) =
      [⟨"1".data, [("notes", Json.str "b".data)]⟩] := rfl
  rw [he] at hc
  have hs : (updateContactAuth [⟨"1".data, [("notes", Json.str "a".data)]⟩]
      ⟨"1".data, [("notes", Json.str "b".data)]⟩ .failure).state =
      [⟨"1".data, [("notes", Json.str "a".data)]⟩] := rfl
  rw [hs] at hc
  injection hc with h1 _
  have h2 : [("notes", Json.str "a".data)] = [("notes", Json.str "b".data)] :=
    congrArg ContactRec.fields h1
  injection h2 with h3 _
  have h4 : Json.str "a".data = Json.str "b".data := congrArg Prod.snd h3
  injection h4 with h5
  exact absurd h5 (by decide)

/-- C4 (amended): on an unclassified remote failure every hook surfaces an
error flag, but the state policies differ per hook: the QR-settings hook
keeps the optimistic merged state and cache; the profile hook never applied
the merge to in-memory state in the authenticated path, so the pre-update
state remains and no cache write occurs; the contacts hook rolls back state
and cache to the pre-update list. -/
theorem update_failure_policies :
    (∀ (p : ProfileState) (u : ProfilePatch) (user : UserInfo)
        (uid : List Char) (cr : RemoteOutcome ProfileDoc),
      (updateProfileAuth p u user uid .failure cr).state = p ∧
      (updateProfileAuth p u user uid .failure cr).cacheWrite = none ∧
      (updateProfileAuth p u user uid .failure cr).error ≠ none) ∧
    (∀ (s : QrSettingsT) (u : QrPatch),
      (updateQrSettingsAuth s u .failure).state = mergeQr s u ∧
      (updateQrSettingsAuth s u .failure).cacheWrite = some (mergeQr s u) ∧
      (updateQrSettingsAuth s u .failure).error ≠ none) ∧
    (∀ (cs : List ContactRec) (u : ContactPatch),
      (updateContactAuth cs u .failure).state = cs ∧
      (updateContactAuth cs u .failure).cacheWrite = some cs ∧
      (updateContactAuth cs u .failure).error ≠ none) := by
  refine ⟨fun p u user uid cr => ⟨rfl, rfl, fun hx => ?_⟩,
    fun s u => ⟨rfl, rfl, fun hx => ?_⟩,
    fun cs u => ⟨rfl, rfl, fun hx => ?_⟩⟩ <;> cases hx

/-! ## Socials round-trip (claim C5) -/

/-- C5: a profile update with `socials = {}` persists the JSON text `"{}"`,
which decodes back to the empty map on the next load (neither `null` nor a
parse error); and the load-time normalizer maps both the raw JSON string
form and the already-decoded object form of `{}` to the same empty map. -/
theorem socials_empty_roundtrip :
    (∀ (cur : ProfileState) (user : UserInfo) (uid : List Char) (fe : Bool),
      cur.socials = some (.obj []) →
      ∃ l, loadProfileResult (profilePayload cur user uid) user fe = some l ∧
        l.socials = some (.obj [])) ∧
    normalizeSocials (.str (jsonStringifyL (.obj []))) = some (.obj []) ∧
    normalizeSocials (.obj []) = some (.obj []) := by
  refine ⟨?_, rfl, rfl⟩
  intro cur user uid fe h
  unfold loadProfileResult profilePayload
  rw [h]
  exact ⟨_, rfl, rfl⟩

/-- Witness for C5 at a concrete profile state. -/
theorem socials_empty_roundtrip_witness :
    ∃ l, loadProfileResult
        (profilePayload
          ⟨some "Ada".data, none, some "Acme".data, some "a@x.io".data, none,
            some (.obj []), none, none⟩
          ⟨"Ada".data, "a@x.io".data⟩ "user1".data)
        ⟨"Ada".data, "a@x.io".data⟩ false = some l ∧
      l.socials = some (.obj []) :=
  socials_empty_roundtrip.1
    ⟨some "Ada".data, none, some "Acme".data, some "a@x.io".data, none,
      some (.obj []), none, none⟩
    ⟨"Ada".data, "a@x.io".data⟩ "user1".data false rfl

/-! ## Sentinel-clearing of the picture reference (claim C6) -/

/-- C6: when the merged update's `profilePictureId` is `null`, `undefined`
or the empty string, the update payload carries the explicit cleared
sentinel `null`, and after persist-then-reload the field reads as no value
(`none`) — in particular never the string `"undefined"` and never a stale
id. -/
theorem profilePictureId_clear_sentinel (p : ProfileState) (u : ProfilePatch)
    (user : UserInfo) (uid : List Char) (fe : Bool)
    (h : (mergeProfile p u).profilePictureId = none ∨
      (mergeProfile p u).profilePictureId = some []) :
    (profilePayload (mergeProfile p u) user uid).profilePictureId =
      some Json.null ∧
    ∀ l, loadProfileResult (profilePayload (mergeProfile p u) user uid) user
        fe = some l → l.profilePictureId = none := by
  have hpay : picturePayload (mergeProfile p u).profilePictureId =
      Json.null := by
    rcases h with h | h <;> rw [h] <;> rfl
  have hdoc : (profilePayload (mergeProfile p u) user uid).profilePictureId =
      some Json.null := by
    unfold profilePayload
    rw [hpay]
  refine ⟨hdoc, ?_⟩
  intro l hl
  unfold loadProfileResult at hl
  rw [hdoc] at hl
  split at hl
  · cases hl
  · injection hl with hl'
    rw [← hl']
    rfl

/-- Witness for C6: clearing a previously set picture id via an
empty-string update. -/
theorem profilePictureId_clear_sentinel_witness :
    (profilePayload
      (mergeProfile
        ⟨some "Ada".data, none, some "Acme".data, some "a@x.io".data, none,
          some (.obj []), some "oldpicture1".data, none⟩
        { profilePictureId := some (some []) })
      ⟨"Ada".data, "a@x.io".data⟩ "user1".data).profilePictureId =
      some Json.null :=
  (profilePictureId_clear_sentinel
    ⟨some "Ada".data, none, some "Acme".data, some "a@x.io".data, none,
      some (.obj []), some "oldpicture1".data, none⟩
    { profilePictureId := some (some []) }
    ⟨"Ada".data, "a@x.io".data⟩ "user1".data true (Or.inr rfl)).1

end CT
